import Mathlib

/-
Verification of the report consolidation and retention engine of the
arxiv_daily_vlm repository (src/src/html_generator.py and src/cleanup_html.py).

Python strings are embedded as `List Char`; Python `date` objects as a
`Date` structure of year/month/day fields.  Python compares `date` objects
componentwise (year, month, day) and implements `date - timedelta(days=k)`
through the proleptic Gregorian ordinal (`date.toordinal`), so date
comparisons against a cutoff `today - timedelta(days=k)` are embedded as
integer comparisons of ordinals: `d >= today - timedelta(days=k)` holds in
Python exactly when `toOrd d >= toOrd today - k`, because `toordinal` is an
order isomorphism between calendar dates and integers.

Directories are embedded as lists of filenames (`os.listdir` order is
arbitrary, so theorems quantify over the list); a source store additionally
carries each file's content as `Option (List Paper)` where `none` stands for
content that fails to load or parse (FileNotFoundError / JSONDecodeError).
-/

/-- Chars of a Lean string literal, used to write Python string constants. -/
def str2 (s : String) : List Char := s.data

/-- The multi-day filename marker "_to_". -/
def mdMarker : List Char := ['_', 't', 'o', '_']

/-- Python substring test `"_to_" in s`: true iff the marker occurs at some
position of `s`. -/
def hasMarker : List Char → Bool
  | [] => false
  | c :: rest => ((c :: rest).take 4 == mdMarker) || hasMarker rest

/-- Fuel-driven body of `splitMarker`; the fuel bounds the recursion depth and
is always instantiated with the length of the list, which each call shrinks. -/
def splitMarkerGo (fuel : Nat) (l : List Char) : List (List Char) :=
  match fuel with
  | 0 => [l]
  | fuel + 1 =>
    match l with
    | [] => [[]]
    | c :: rest =>
      if (c :: rest).take 4 == mdMarker then
        [] :: splitMarkerGo fuel ((c :: rest).drop 4)
      else
        match splitMarkerGo fuel rest with
        | [] => [[c]]
        | seg :: segs => (c :: seg) :: segs

/-- Python `s.split("_to_")`: split on leftmost non-overlapping occurrences of
the marker; always returns a non-empty list of segments. -/
def splitMarker (l : List Char) : List (List Char) :=
  splitMarkerGo l.length l

/-- Fuel-driven body of `replaceAll`; the fuel bounds the recursion depth and
is always instantiated with the length of the list, which each call shrinks. -/
def replaceAllGo (pat repl : List Char) (fuel : Nat) (l : List Char) : List Char :=
  match fuel with
  | 0 => l
  | fuel + 1 =>
    match l with
    | [] => []
    | c :: rest =>
      if pat.length ≠ 0 ∧ (c :: rest).take pat.length == pat then
        repl ++ replaceAllGo pat repl fuel ((c :: rest).drop pat.length)
      else
        c :: replaceAllGo pat repl fuel rest

/-- Python `s.replace(pat, repl)`: replace every leftmost non-overlapping
occurrence of `pat` (pat is non-empty at every call site, as in the source). -/
def replaceAll (pat repl : List Char) (l : List Char) : List Char :=
  replaceAllGo pat repl l.length l

/-- Python string comparison (lexicographic by code point). -/
def pyStrLt : List Char → List Char → Bool
  | [], [] => false
  | [], _ :: _ => true
  | _ :: _, [] => false
  | a :: as, b :: bs => a.toNat < b.toNat || (a == b && pyStrLt as bs)

/-- A Python `datetime.date`: year, month, day. -/
structure Date where
  year : Nat
  month : Nat
  day : Nat
deriving DecidableEq

/-- Python date comparison `a < b`: componentwise lexicographic. -/
def dateLt (a b : Date) : Bool :=
  a.year < b.year ||
    (a.year == b.year &&
      (a.month < b.month || (a.month == b.month && a.day < b.day)))

/-- Gregorian leap-year test, as in Python's calendar. -/
def isLeap (y : Nat) : Bool :=
  y % 4 == 0 && (y % 100 != 0 || y % 400 == 0)

/-- Days in a month of a given year (0 for an invalid month number). -/
def daysInMonth (y m : Nat) : Nat :=
  match m with
  | 1 => 31
  | 2 => if isLeap y then 29 else 28
  | 3 => 31
  | 4 => 30
  | 5 => 31
  | 6 => 30
  | 7 => 31
  | 8 => 31
  | 9 => 30
  | 10 => 31
  | 11 => 30
  | 12 => 31
  | _ => 0

def isDigitChar (c : Char) : Bool := '0' ≤ c && c ≤ '9'

def digitVal (c : Char) : Nat := c.toNat - 48

/-- Python `date.fromisoformat`: accepts exactly `YYYY-MM-DD` with a valid
calendar date (year at least 1), otherwise raises ValueError (here: `none`). -/
def fromisoformat (l : List Char) : Option Date :=
  match l with
  | [y1, y2, y3, y4, '-', m1, m2, '-', d1, d2] =>
    if [y1, y2, y3, y4, m1, m2, d1, d2].all isDigitChar then
      let y := digitVal y1 * 1000 + digitVal y2 * 100 + digitVal y3 * 10 + digitVal y4
      let m := digitVal m1 * 10 + digitVal m2
      let d := digitVal d1 * 10 + digitVal d2
      if 1 ≤ y ∧ 1 ≤ m ∧ m ≤ 12 ∧ 1 ≤ d ∧ d ≤ daysInMonth y m then
        some ⟨y, m, d⟩
      else none
    else none
  | _ => none

/-- Days in the months of year `y` strictly before month `m`. -/
def daysBeforeMonth (y m : Nat) : Nat :=
  (List.range' 1 (m - 1)).foldl (fun acc k => acc + daysInMonth y k) 0

/-- Python `date.toordinal`: day number in the proleptic Gregorian calendar,
with day 1 = 0001-01-01. -/
def toOrd (dt : Date) : Int :=
  (365 * ((dt.year : Int) - 1) + ((dt.year : Int) - 1) / 4 - ((dt.year : Int) - 1) / 100
      + ((dt.year : Int) - 1) / 400)
    + (daysBeforeMonth dt.year dt.month : Int) + (dt.day : Int)

/-- Decimal digit as a character. -/
def digitChar (n : Nat) : Char :=
  match n with
  | 0 => '0' | 1 => '1' | 2 => '2' | 3 => '3' | 4 => '4'
  | 5 => '5' | 6 => '6' | 7 => '7' | 8 => '8' | _ => '9'

/-- Fuel-driven body of `natDigits`; the fuel bounds the recursion depth and
is always instantiated with the number itself, which dominates its number of
decimal digits. -/
def natDigitsGo (fuel n : Nat) : List Char :=
  match fuel with
  | 0 => [digitChar n]
  | fuel + 1 =>
    if n < 10 then [digitChar n]
    else natDigitsGo fuel (n / 10) ++ [digitChar (n % 10)]

/-- Decimal digits of a natural number, most significant first. -/
def natDigits (n : Nat) : List Char :=
  natDigitsGo n n

/-- Python `str.zfill` on a digit string: left-pad with zeros to width `k`. -/
def zfill (k : Nat) (l : List Char) : List Char :=
  List.replicate (k - l.length) '0' ++ l

/-- Python `d.strftime("%Y_%m_%d")`. -/
def fmtDateU (dt : Date) : List Char :=
  zfill 4 (natDigits dt.year) ++ ['_'] ++ zfill 2 (natDigits dt.month)
    ++ ['_'] ++ zfill 2 (natDigits dt.day)

/-- English month name, for `strftime("%B ...")`. -/
def monthName (m : Nat) : List Char :=
  match m with
  | 1 => str2 "January" | 2 => str2 "February" | 3 => str2 "March"
  | 4 => str2 "April" | 5 => str2 "May" | 6 => str2 "June"
  | 7 => str2 "July" | 8 => str2 "August" | 9 => str2 "September"
  | 10 => str2 "October" | 11 => str2 "November" | 12 => str2 "December"
  | _ => []

/-- Python `d.strftime("%B %d, %Y")`. -/
def fmtDateHuman (dt : Date) : List Char :=
  monthName dt.month ++ [' '] ++ zfill 2 (natDigits dt.day) ++ [',', ' ']
    ++ natDigits dt.year

example : fromisoformat (str2 "2024-01-31") = some ⟨2024, 1, 31⟩ := by decide
example : fromisoformat (str2 "2024-02-30") = none := by decide
example : fromisoformat (str2 "notadate") = none := by decide
example : fmtDateU ⟨2024, 3, 5⟩ = str2 "2024_03_05" := by decide
example : hasMarker (str2 "2024_01_01_to_2024_01_02.html") = true := by decide
example : hasMarker (str2 "2024_01_01.html") = false := by decide
example : splitMarker (str2 "a_to_b_to_c") = [str2 "a", str2 "b", str2 "c"] := by decide
example : replaceAll (str2 ".html") [] (str2 "2024_01_01.html") = str2 "2024_01_01" := by decide
example : toOrd ⟨1, 1, 1⟩ = 1 := by decide
example : toOrd ⟨2024, 3, 1⟩ - toOrd ⟨2024, 2, 28⟩ = 2 := by decide

/-- Insert `x` into a descending-sorted list, after every element not below it;
models the placement a stable descending sort gives a later-arriving element. -/
def insertDesc (lt : α → α → Bool) (x : α) : List α → List α
  | [] => [x]
  | y :: ys => if lt y x then x :: y :: ys else y :: insertDesc lt x ys

/-- Python `list.sort(reverse=True)` (stable descending sort) under the strict
comparison `lt`: elements are inserted in arrival order, each after the
already-placed elements that are not below it. -/
def sortDesc (lt : α → α → Bool) (l : List α) : List α :=
  l.foldl (fun acc x => insertDesc lt x acc) []

/-- Python slice `l[:stop]` with a possibly negative `stop`. -/
def pySliceTo (l : List α) (stop : Int) : List α :=
  if 0 ≤ stop then l.take stop.toNat else l.take (l.length - (-stop).toNat)

/-- Python `min` over a list of dates (first element on equality). -/
def pyMinDate (l : List Date) : Date :=
  match l with
  | [] => ⟨1, 1, 1⟩
  | x :: xs => xs.foldl (fun acc d => if dateLt d acc then d else acc) x

/-- Python `max` over a list of dates (first element on equality). -/
def pyMaxDate (l : List Date) : Date :=
  match l with
  | [] => ⟨1, 1, 1⟩
  | x :: xs => xs.foldl (fun acc d => if dateLt acc d then d else acc) x

/-- A paper record: the only fields the engine interprets are the numeric
`overall_priority_score` (missing when `none`) and the two source-date fields
it injects itself before merging; everything else is opaque payload. -/
structure Paper where
  score : Option Int := none
  payload : Nat := 0
  source_date : Option Date := none
  source_date_fmt : Option (List Char) := none
deriving DecidableEq

/-- Python `x.get("overall_priority_score", 0)`. -/
def getScore (p : Paper) : Int := p.score.getD 0

/-- Strict comparison of papers by priority score, the sort key of the engine. -/
def scoreLt (a b : Paper) : Bool := getScore a < getScore b

/-- A source store: the `json_dir` listing, each filename paired with its
content; `none` content stands for a file whose JSON fails to load or parse. -/
abbrev SrcStore := List (List Char × Option (List Paper))

/-- Comparison used by `json_files.sort(reverse=True)`: Python tuple order on
`(date, filename)` pairs. -/
def pairLt (a b : Date × List Char) : Bool :=
  dateLt a.1 b.1 || (a.1 == b.1 && pyStrLt a.2 b.2)

/-- One step of the source enumeration: a filename is a candidate iff it ends
with ".json" and the text before its first dot parses as an ISO date
(`filename.split(".")[0]`); otherwise it is silently skipped. -/
def fileCand (n : List Char) : Option (Date × List Char) :=
  if (str2 ".json").isSuffixOf n then
    (fromisoformat (n.takeWhile (fun c => c ≠ '.'))).map (fun d => (d, n))
  else none

/-- The valid daily sources of the store, in listing order: depends only on the
filenames, never on the contents. -/
def jsonCandidates (src : SrcStore) : List (Date × List Char) :=
  (src.map Prod.fst).filterMap fileCand

/-- The sources `generate_multi_day_html` selects: candidates sorted newest
first, truncated by `json_files[:days]` after `days = min(days, 10)`. -/
def selectedFiles (src : SrcStore) (days : Int) : List (Date × List Char) :=
  pySliceTo (sortDesc pairLt (jsonCandidates src)) (min days 10)

/-- `date_range`: the dates of the selected sources, in selection order. -/
def dateRange (src : SrcStore) (days : Int) : List Date :=
  (selectedFiles src days).map Prod.fst

/-- The output filename `generate_multi_day_html` derives from `date_range`:
the single-day shape for exactly one entry, otherwise `start_to_end` from the
minimum and maximum. -/
def outputFilename (dr : List Date) : List Char :=
  if dr.length = 1 then
    fmtDateU (dr.headD ⟨1, 1, 1⟩) ++ str2 ".html"
  else
    fmtDateU (pyMinDate dr) ++ mdMarker ++ fmtDateU (pyMaxDate dr) ++ str2 ".html"

/-- The date annotation the loader writes into each merged record. -/
def tagPaper (fd : Date) (p : Paper) : Paper :=
  { p with source_date := some fd, source_date_fmt := some (fmtDateHuman fd) }

/-- `all_papers`: the records of every selected source whose content loads and
parses, each annotated with its source date; a source whose content fails is
skipped with a warning and contributes nothing. -/
def allPapers (src : SrcStore) (days : Int) : List Paper :=
  (selectedFiles src days).flatMap fun fd_n =>
    match src.lookup fd_n.2 with
    | some (some papers) => papers.map (tagPaper fd_n.1)
    | _ => []

/-- The combined record sequence as rendered: `all_papers` sorted by
`overall_priority_score` descending (stable). -/
def sortedAllPapers (src : SrcStore) (days : Int) : List Paper :=
  sortDesc scoreLt (allPapers src days)

/-- Result of one `generate_multi_day_html` run: the output-store listing
afterwards, how many documents the run wrote, and the record sequence it
rendered (when it wrote one). -/
structure GenResult where
  out : List (List Char)
  writes : Nat
  rendered : Option (List Paper)
deriving DecidableEq

/-- Embedding of `generate_multi_day_html(json_dir, ..., output_dir, days)`:
select sources, derive the output name, skip when it already exists, load and
merge the contents, sort, render and write. -/
def generate_multi_day_html (src : SrcStore) (out : List (List Char)) (days : Int) :
    GenResult :=
  if selectedFiles src days = [] then
    ⟨out, 0, none⟩
  else
    let name := outputFilename (dateRange src days)
    if name ∈ out then
      ⟨out, 0, none⟩
    else if allPapers src days = [] then
      ⟨out, 0, none⟩
    else
      ⟨out ++ [name], 1, some (sortedAllPapers src days)⟩

example :
    generate_multi_day_html
      [(str2 "2024-03-05.json", some [{ score := some 3 }])] [] 10
    = ⟨[str2 "2024_03_05.html"], 1,
        some [{ score := some 3, source_date := some ⟨2024, 3, 5⟩,
                source_date_fmt := some (str2 "March 05, 2024") }]⟩ := by
  decide

/-- Python `filename.endswith(".html")`. -/
def endsWithHtml (n : List Char) : Bool := (str2 ".html").isSuffixOf n

/-- Single-day classification in `cleanup_old_html_files`:
`date.fromisoformat(filename.replace(".html", "").replace("_", "-"))`. -/
def singleDayParse (n : List Char) : Option Date :=
  fromisoformat (replaceAll (str2 "_") (str2 "-") (replaceAll (str2 ".html") [] n))

/-- Multi-day classification in `cleanup_old_html_files`: the end date,
`date.fromisoformat(filename.split("_to_")[-1].replace(".html", "").replace("_", "-"))`. -/
def multiDayParse (n : List Char) : Option Date :=
  fromisoformat (replaceAll (str2 "_") (str2 "-")
    (replaceAll (str2 ".html") [] ((splitMarker n).getLastD [])))

/-- `single_day_files`: the ".html" names without the marker whose date
parses, with their dates; names that fail to parse are skipped with a
warning. -/
def singleDayFiles (files : List (List Char)) : List (Date × List Char) :=
  files.filterMap fun n =>
    if endsWithHtml n && !hasMarker n then
      (singleDayParse n).map (fun d => (d, n))
    else none

/-- `multi_day_files`: the ".html" names containing the marker whose end date
parses, with their end dates; names that fail to parse are skipped with a
warning. -/
def multiDayFiles (files : List (List Char)) : List (Date × List Char) :=
  files.filterMap fun n =>
    if endsWithHtml n && hasMarker n then
      (multiDayParse n).map (fun d => (d, n))
    else none

/-- `files_to_keep`: every single-day name, plus for each keep window `kd` the
multi-day names whose end date is on or after `today - timedelta(days=kd)`
(the comparison taken on Gregorian ordinals, `todayOrd = toOrd today`). -/
def filesToKeep (files : List (List Char)) (todayOrd : Int) (keepDays : List Int) :
    List (List Char) :=
  (singleDayFiles files).map Prod.snd ++
    keepDays.flatMap fun kd =>
      ((sortDesc (fun a b => dateLt a.1 b.1) (multiDayFiles files)).filter
          (fun p => todayOrd - kd ≤ toOrd p.1)).map Prod.snd

/-- The multi-day names the sweep removes: those not in `files_to_keep`
(deletion is only ever attempted on multi-day entries). -/
def deletedFiles (files : List (List Char)) (todayOrd : Int) (keepDays : List Int) :
    List (List Char) :=
  ((sortDesc (fun a b => dateLt a.1 b.1) (multiDayFiles files)).filter
      (fun p => p.2 ∉ filesToKeep files todayOrd keepDays)).map Prod.snd

/-- Embedding of `cleanup_old_html_files(html_dir, keep_days)`: the directory
listing after the sweep. -/
def cleanup_old_html_files (files : List (List Char)) (todayOrd : Int)
    (keepDays : List Int) : List (List Char) :=
  files.filter fun n => n ∉ deletedFiles files todayOrd keepDays

/-- The names the cleanup script imports at module level (`import os`,
`import sys`, `import logging`, `from datetime import date`,
`from src.html_generator import cleanup_old_html_files`); notably absent is
`json`, which the reports-index rewrite block then references. -/
def cleanupScriptImportedNames : List (List Char) :=
  [str2 "os", str2 "sys", str2 "logging", str2 "date",
   str2 "cleanup_old_html_files"]

/-- State of the `reports.json` index file: missing, a zero-byte file (what
`open(path, "w")` leaves when nothing is written into it afterwards — not
valid JSON), or a JSON array of filenames. -/
inductive ReportsJson where
  | absent
  | empty
  | listing (names : List (List Char))
deriving DecidableEq

/-- Result of one run of the maintenance entry point `cleanup_html.main`. -/
structure MainResult where
  exitCode : Nat
  htmlDir : Option (List (List Char))
  reportsJson : ReportsJson
deriving DecidableEq

/-- Embedding of `cleanup_html.main()`: exit 1 when the output store is absent
(before the index is touched); otherwise sweep with the default windows, then
try to rewrite `reports.json` with the descending-sorted ".html" listing.
`with open(reports_json_path, "w", ...)` opens in write mode, which truncates
the index file to zero bytes at once; `json.dump(html_files, f, ...)` would
then write the listing, but the module never imports `json`, so evaluating
`json.dump` raises NameError, the surrounding `except Exception` swallows it
after logging, and the index file is left truncated — its prior content is
destroyed and the listing is never written. -/
def cleanup_html_main (htmlDir : Option (List (List Char))) (todayOrd : Int)
    (reports0 : ReportsJson) : MainResult :=
  match htmlDir with
  | none => ⟨1, none, reports0⟩
  | some files =>
    let files := cleanup_old_html_files files todayOrd [10, 20, 30]
    let reports1 :=
      if str2 "json" ∈ cleanupScriptImportedNames then
        ReportsJson.listing (sortDesc pyStrLt (files.filter endsWithHtml))
      else ReportsJson.empty
    ⟨0, some files, reports1⟩

example :
    cleanup_old_html_files
      [str2 "2024_02_01.html", str2 "2024_01_01_to_2024_01_10.html"]
      (toOrd ⟨2024, 2, 15⟩) [10, 20, 30]
    = [str2 "2024_02_01.html"] := by decide

example :
    cleanup_old_html_files
      [str2 "2024_02_01.html", str2 "2024_01_01_to_2024_02_10.html",
       str2 "notes.txt", str2 "garbage.html"]
      (toOrd ⟨2024, 2, 15⟩) [10, 20, 30]
    = [str2 "2024_02_01.html", str2 "2024_01_01_to_2024_02_10.html",
       str2 "notes.txt", str2 "garbage.html"] := by decide

theorem insertDesc_perm (lt : α → α → Bool) (x : α) (l : List α) :
    List.Perm (insertDesc lt x l) (x :: l) := by
  induction l with
  | nil => exact List.Perm.refl _
  | cons y ys ih =>
    unfold insertDesc
    split
    · exact List.Perm.refl _
    · exact (List.Perm.cons y ih).trans (List.Perm.swap x y ys)

theorem sortDesc_foldl_perm (lt : α → α → Bool) (l acc : List α) :
    List.Perm (l.foldl (fun acc x => insertDesc lt x acc) acc) (acc ++ l) := by
  induction l generalizing acc with
  | nil => simp
  | cons x xs ih =>
    simp only [List.foldl_cons]
    exact ((ih (insertDesc lt x acc)).trans
      (((insertDesc_perm lt x acc).append_right xs).trans List.perm_middle.symm))

theorem sortDesc_perm (lt : α → α → Bool) (l : List α) :
    List.Perm (sortDesc lt l) l := by
  simpa using sortDesc_foldl_perm lt l []

theorem mem_sortDesc (lt : α → α → Bool) (l : List α) (a : α) :
    a ∈ sortDesc lt l ↔ a ∈ l :=
  (sortDesc_perm lt l).mem_iff

theorem insertDesc_sorted_score (x : Paper) (l : List Paper)
    (h : l.Pairwise (fun a b => getScore b ≤ getScore a)) :
    (insertDesc scoreLt x l).Pairwise (fun a b => getScore b ≤ getScore a) := by
  induction l with
  | nil => simp [insertDesc]
  | cons y ys ih =>
    rcases List.pairwise_cons.mp h with ⟨hy, hys⟩
    unfold insertDesc
    split
    · rename_i hlt
      have hxy : getScore y ≤ getScore x := by
        have h1 : getScore y < getScore x := by simpa [scoreLt] using hlt
        omega
      refine List.pairwise_cons.mpr ⟨?_, h⟩
      intro b hb
      rcases List.mem_cons.mp hb with rfl | hb
      · exact hxy
      · exact le_trans (hy b hb) hxy
    · rename_i hlt
      have hyx : getScore x ≤ getScore y := by
        have h1 : ¬ getScore y < getScore x := by simpa [scoreLt] using hlt
        omega
      refine List.pairwise_cons.mpr ⟨?_, ih hys⟩
      intro b hb
      have hb2 : b = x ∨ b ∈ ys := by
        have hm := (insertDesc_perm scoreLt x ys).mem_iff.mp hb
        simpa using hm
      rcases hb2 with rfl | hb2
      · exact hyx
      · exact hy b hb2

theorem sortDesc_foldl_sorted_score (l : List Paper) :
    ∀ acc : List Paper, acc.Pairwise (fun a b => getScore b ≤ getScore a) →
      (l.foldl (fun acc x => insertDesc scoreLt x acc) acc).Pairwise
        (fun a b => getScore b ≤ getScore a) := by
  induction l with
  | nil => intro acc hacc; simpa using hacc
  | cons x xs ih =>
    intro acc hacc
    simp only [List.foldl_cons]
    exact ih _ (insertDesc_sorted_score x acc hacc)

theorem sortDesc_sorted_score (l : List Paper) :
    (sortDesc scoreLt l).Pairwise (fun a b => getScore b ≤ getScore a) :=
  sortDesc_foldl_sorted_score l [] (by simp)

theorem hasMarker_append_marker (a b : List Char) :
    hasMarker (a ++ mdMarker ++ b) = true := by
  induction a with
  | nil => simp [hasMarker, mdMarker]
  | cons c a ih =>
    have he : (c :: a) ++ mdMarker ++ b = c :: (a ++ mdMarker ++ b) := by simp
    rw [he, hasMarker, ih]
    simp

theorem hasMarker_eq_false (l : List Char) (h : ∀ c ∈ l, c ≠ 'o') :
    hasMarker l = false := by
  induction l with
  | nil => rfl
  | cons c rest ih =>
    have h4 : ((c :: rest).take 4 == mdMarker) = false := by
      apply beq_eq_false_iff_ne.mpr
      intro he
      have ho : 'o' ∈ (c :: rest).take 4 := by rw [he]; simp [mdMarker]
      exact h 'o' (List.take_subset _ _ ho) rfl
    simp only [hasMarker, h4, Bool.false_or]
    exact ih (fun c hc => h c (List.mem_cons_of_mem _ hc))

theorem digitChar_ne_o (n : Nat) : digitChar n ≠ 'o' := by
  unfold digitChar
  split <;> decide

theorem natDigitsGo_no_o (fuel : Nat) : ∀ n c, c ∈ natDigitsGo fuel n → c ≠ 'o' := by
  induction fuel with
  | zero =>
    intro n c hc
    simp only [natDigitsGo, List.mem_singleton] at hc
    subst hc
    exact digitChar_ne_o n
  | succ fuel ih =>
    intro n c hc
    simp only [natDigitsGo] at hc
    split at hc
    · simp only [List.mem_singleton] at hc
      subst hc
      exact digitChar_ne_o n
    · rcases List.mem_append.mp hc with h1 | h1
      · exact ih _ c h1
      · simp only [List.mem_singleton] at h1
        subst h1
        exact digitChar_ne_o _

theorem zfill_natDigits_no_o (k n : Nat) : ∀ c ∈ zfill k (natDigits n), c ≠ 'o' := by
  intro c hc
  rcases List.mem_append.mp hc with h | h
  · have := List.eq_of_mem_replicate h
    subst this
    decide
  · exact natDigitsGo_no_o n n c h

theorem fmtDateU_html_no_o (dt : Date) :
    ∀ c ∈ fmtDateU dt ++ str2 ".html", c ≠ 'o' := by
  intro c hc
  rcases List.mem_append.mp hc with h | h
  · simp only [fmtDateU, List.append_assoc, List.mem_append] at h
    rcases h with h | h | h | h | h
    · exact zfill_natDigits_no_o 4 dt.year c h
    · simp only [List.mem_singleton] at h; subst h; decide
    · exact zfill_natDigits_no_o 2 dt.month c h
    · simp only [List.mem_singleton] at h; subst h; decide
    · exact zfill_natDigits_no_o 2 dt.day c h
  · exact fun hco => by subst hco; revert h; decide

theorem hasMarker_single_name (dt : Date) :
    hasMarker (fmtDateU dt ++ str2 ".html") = false :=
  hasMarker_eq_false _ (fmtDateU_html_no_o dt)

theorem hasMarker_multi_name (s e : Date) :
    hasMarker (fmtDateU s ++ mdMarker ++ fmtDateU e ++ str2 ".html") = true := by
  have h := hasMarker_append_marker (fmtDateU s) (fmtDateU e ++ str2 ".html")
  simpa [List.append_assoc] using h

/-- Source store holding two daily files whose names carry the same calendar
date (`"2024-01-01.json"` and `"2024-01-01.v2.json"`: `split(".")[0]` parses
both to 2024-01-01). -/
def c1Store : SrcStore :=
  [(str2 "2024-01-01.json", some [{ score := some 1 }]),
   (str2 "2024-01-01.v2.json", some [{ score := some 2 }])]

/-- C1 counterexample: on a store with two sources sharing one calendar date,
the covered-date set has cardinality 1 and min = max, yet the planned output
name is the multi-day shape `2024_01_01_to_2024_01_01.html`, not the
single-day shape — the claimed equivalence and the claimed collapse both fail
(the branch tests `len(date_range) == 1` on a list that keeps duplicates). -/
theorem c1_counterexample :
    (dateRange c1Store 10).dedup.length = 1 ∧
    pyMinDate (dateRange c1Store 10) = pyMaxDate (dateRange c1Store 10) ∧
    hasMarker (outputFilename (dateRange c1Store 10)) = true ∧
    outputFilename (dateRange c1Store 10) = str2 "2024_01_01_to_2024_01_01.html" := by
  decide

/-- C1 amended: for every generation run that selects at least one source, the
planned output name is the single-day shape (no "_to_" marker) iff exactly one
source file is selected (dates counted with multiplicity); several selected
sources sharing one date give the multi-day shape `X_to_X` without throwing. -/
theorem c1_amended (src : SrcStore) (days : Int)
    (h : selectedFiles src days ≠ []) :
    hasMarker (outputFilename (dateRange src days)) = false ↔
      (selectedFiles src days).length = 1 := by
  have hlen : (dateRange src days).length = (selectedFiles src days).length := by
    simp [dateRange]
  unfold outputFilename
  split
  · rename_i h1
    rw [hasMarker_single_name]
    simp [← hlen, h1]
  · rename_i h1
    rw [hasMarker_multi_name]
    simp only [← hlen]
    simp [h1]

/-- C1 witness: the amended statement evaluated on a store with the single
source `2024-03-05.json`, where the planner emits the single-day name. -/
theorem c1_amended_witness :
    selectedFiles [(str2 "2024-03-05.json", some [{ score := some 1 }])] 10 ≠ [] ∧
    (hasMarker (outputFilename
        (dateRange [(str2 "2024-03-05.json", some [{ score := some 1 }])] 10)) = false ↔
      (selectedFiles [(str2 "2024-03-05.json", some [{ score := some 1 }])] 10).length = 1) :=
  ⟨by decide, c1_amended [(str2 "2024-03-05.json", some [{ score := some 1 }])] 10 (by decide)⟩

/-- C2: generation is idempotent. Against unchanged stores, running
`generate_multi_day_html` a second time over the output of the first run
leaves the output store unchanged and performs zero writes; one run writes at
most one document, and when the first run does write, the final store holds
exactly one document with the computed name. -/
theorem c2_idempotent_generation (src : SrcStore) (out : List (List Char)) (days : Int) :
    (generate_multi_day_html src (generate_multi_day_html src out days).out days).out
        = (generate_multi_day_html src out days).out ∧
    (generate_multi_day_html src (generate_multi_day_html src out days).out days).writes = 0 ∧
    (generate_multi_day_html src out days).writes ≤ 1 ∧
    ((generate_multi_day_html src out days).writes = 1 →
      ((generate_multi_day_html src (generate_multi_day_html src out days).out days).out.count
          (outputFilename (dateRange src days)) = 1)) := by
  by_cases hsel : selectedFiles src days = []
  · simp [generate_multi_day_html, hsel]
  · by_cases hex : outputFilename (dateRange src days) ∈ out
    · simp [generate_multi_day_html, hsel, hex]
    · by_cases hp : allPapers src days = []
      · simp [generate_multi_day_html, hsel, hex, hp]
      · have hmem : outputFilename (dateRange src days)
            ∈ out ++ [outputFilename (dateRange src days)] := by simp
        simp only [generate_multi_day_html, if_neg hsel, if_neg hex, if_neg hp, if_pos hmem]
        refine ⟨?_, ?_, ?_, fun _ => ?_⟩
        · trivial
        · trivial
        · simp
        · rw [List.count_append, List.count_eq_zero.mpr hex]
          simp

theorem multiDayFiles_mem_spec (files : List (List Char)) (p : Date × List Char)
    (hp : p ∈ multiDayFiles files) :
    p.2 ∈ files ∧ endsWithHtml p.2 = true ∧ hasMarker p.2 = true ∧
      multiDayParse p.2 = some p.1 := by
  rcases List.mem_filterMap.mp hp with ⟨a, ha, hfa⟩
  by_cases hc : (endsWithHtml a && hasMarker a) = true
  · rw [if_pos hc] at hfa
    rcases Option.map_eq_some'.mp hfa with ⟨d0, hd0, heq⟩
    cases heq
    have hc2 : endsWithHtml a = true ∧ hasMarker a = true := by simpa using hc
    exact ⟨ha, hc2.1, hc2.2, hd0⟩
  · rw [if_neg hc] at hfa
    cases hfa

theorem multiDayFiles_mem_intro (files : List (List Char)) (n : List Char) (d : Date)
    (hn : n ∈ files) (h1 : endsWithHtml n = true) (h2 : hasMarker n = true)
    (h3 : multiDayParse n = some d) :
    (d, n) ∈ multiDayFiles files := by
  apply List.mem_filterMap.mpr
  refine ⟨n, hn, ?_⟩
  rw [if_pos (by rw [h1, h2]; rfl), h3]
  rfl

theorem singleDayFiles_mem_spec (files : List (List Char)) (p : Date × List Char)
    (hp : p ∈ singleDayFiles files) :
    p.2 ∈ files ∧ endsWithHtml p.2 = true ∧ hasMarker p.2 = false ∧
      singleDayParse p.2 = some p.1 := by
  rcases List.mem_filterMap.mp hp with ⟨a, ha, hfa⟩
  by_cases hc : (endsWithHtml a && !hasMarker a) = true
  · rw [if_pos hc] at hfa
    rcases Option.map_eq_some'.mp hfa with ⟨d0, hd0, heq⟩
    cases heq
    have hc2 : endsWithHtml a = true ∧ hasMarker a = false := by
      constructor
      · simpa using (by simpa using hc : endsWithHtml a = true ∧ (!hasMarker a) = true).1
      · simpa using (by simpa using hc : endsWithHtml a = true ∧ (!hasMarker a) = true).2
    exact ⟨ha, hc2.1, hc2.2, hd0⟩
  · rw [if_neg hc] at hfa
    cases hfa

theorem mem_filesToKeep (files : List (List Char)) (todayOrd : Int)
    (keepDays : List Int) (n : List Char) :
    n ∈ filesToKeep files todayOrd keepDays ↔
      (∃ d, (d, n) ∈ singleDayFiles files) ∨
      (∃ kd ∈ keepDays, ∃ d, (d, n) ∈ multiDayFiles files ∧ todayOrd - kd ≤ toOrd d) := by
  simp only [filesToKeep, List.mem_append, List.mem_map, List.mem_flatMap,
    List.mem_filter, mem_sortDesc, decide_eq_true_eq]
  constructor
  · rintro (⟨p, hp, rfl⟩ | ⟨kd, hkd, p, ⟨⟨hp, hcut⟩, rfl⟩⟩)
    · exact Or.inl ⟨p.1, hp⟩
    · exact Or.inr ⟨kd, hkd, p.1, hp, hcut⟩
  · rintro (⟨d, hd⟩ | ⟨kd, hkd, d, hd, hcut⟩)
    · exact Or.inl ⟨(d, n), hd, rfl⟩
    · exact Or.inr ⟨kd, hkd, (d, n), ⟨⟨hd, hcut⟩, rfl⟩⟩

theorem mem_deletedFiles (files : List (List Char)) (todayOrd : Int)
    (keepDays : List Int) (n : List Char) :
    n ∈ deletedFiles files todayOrd keepDays ↔
      (∃ d, (d, n) ∈ multiDayFiles files) ∧
        n ∉ filesToKeep files todayOrd keepDays := by
  simp only [deletedFiles, List.mem_map, List.mem_filter, mem_sortDesc,
    decide_eq_true_eq]
  constructor
  · rintro ⟨p, ⟨⟨hp, hnk⟩, rfl⟩⟩
    exact ⟨⟨p.1, hp⟩, hnk⟩
  · rintro ⟨⟨d, hd⟩, hnk⟩
    exact ⟨(d, n), ⟨⟨hd, hnk⟩, rfl⟩⟩

theorem mem_cleanup (files : List (List Char)) (todayOrd : Int)
    (keepDays : List Int) (n : List Char) :
    n ∈ cleanup_old_html_files files todayOrd keepDays ↔
      n ∈ files ∧ n ∉ deletedFiles files todayOrd keepDays := by
  simp [cleanup_old_html_files, List.mem_filter]

/-- C3: a multi-day ".html" document whose end date (the segment after the
marker) parses is retained by the sweep iff its end date is on or after
`today - d` for at least one window `d` of `keep_days` (windows are OR-ed);
with the default windows [10, 20, 30] it survives iff its end date falls
within the last 30 days, and anything strictly older is deleted. -/
theorem c3_multi_day_retention (files : List (List Char)) (todayOrd : Int)
    (keepDays : List Int) (n : List Char) (d : Date)
    (hn : n ∈ files) (hh : endsWithHtml n = true) (hm : hasMarker n = true)
    (hd : multiDayParse n = some d) :
    (n ∈ cleanup_old_html_files files todayOrd keepDays ↔
        ∃ kd ∈ keepDays, todayOrd - kd ≤ toOrd d) ∧
    (n ∈ cleanup_old_html_files files todayOrd [10, 20, 30] ↔
        todayOrd - 30 ≤ toOrd d) := by
  have hmd : (d, n) ∈ multiDayFiles files := multiDayFiles_mem_intro files n d hn hh hm hd
  have hnosingle : ¬ ∃ d0, (d0, n) ∈ singleDayFiles files := by
    rintro ⟨d0, hd0⟩
    have hq := (singleDayFiles_mem_spec files (d0, n) hd0).2.2.1
    simp only at hq
    rw [hm] at hq
    cases hq
  have hdet : ∀ d0, (d0, n) ∈ multiDayFiles files → d0 = d := by
    intro d0 h0
    have hq := (multiDayFiles_mem_spec files (d0, n) h0).2.2.2
    simp only at hq
    rw [hd] at hq
    exact (Option.some_inj.mp hq).symm
  have key : ∀ ks : List Int, n ∈ cleanup_old_html_files files todayOrd ks ↔
      ∃ kd ∈ ks, todayOrd - kd ≤ toOrd d := by
    intro ks
    rw [mem_cleanup, mem_deletedFiles, mem_filesToKeep]
    constructor
    · rintro ⟨-, hnotdel⟩
      by_contra hno
      apply hnotdel
      refine ⟨⟨d, hmd⟩, ?_⟩
      rintro (hs | ⟨kd, hkd, d0, hd0, hcut⟩)
      · exact hnosingle hs
      · exact hno ⟨kd, hkd, by rwa [hdet d0 hd0] at hcut⟩
    · rintro ⟨kd, hkd, hcut⟩
      refine ⟨hn, ?_⟩
      rintro ⟨-, hnk⟩
      exact hnk (Or.inr ⟨kd, hkd, d, hmd, hcut⟩)
  refine ⟨key keepDays, ?_⟩
  rw [key [10, 20, 30]]
  constructor
  · rintro ⟨kd, hkd, hcut⟩
    simp only [List.mem_cons, List.not_mem_nil, or_false] at hkd
    rcases hkd with rfl | rfl | rfl <;> omega
  · intro hcut
    exact ⟨30, by simp, hcut⟩

/-- C3 witness: the spec's own sweep scenario — store holding only
`2024_01_01_to_2024_01_10.html`, today 2024-02-15, default windows. -/
theorem c3_multi_day_retention_witness :
    (str2 "2024_01_01_to_2024_01_10.html") ∈ [str2 "2024_01_01_to_2024_01_10.html"] ∧
    endsWithHtml (str2 "2024_01_01_to_2024_01_10.html") = true ∧
    hasMarker (str2 "2024_01_01_to_2024_01_10.html") = true ∧
    multiDayParse (str2 "2024_01_01_to_2024_01_10.html") = some ⟨2024, 1, 10⟩ ∧
    (((str2 "2024_01_01_to_2024_01_10.html") ∈ cleanup_old_html_files
          [str2 "2024_01_01_to_2024_01_10.html"] (toOrd ⟨2024, 2, 15⟩) [10, 20, 30] ↔
        ∃ kd ∈ [(10 : Int), 20, 30], toOrd ⟨2024, 2, 15⟩ - kd ≤ toOrd ⟨2024, 1, 10⟩) ∧
      ((str2 "2024_01_01_to_2024_01_10.html") ∈ cleanup_old_html_files
          [str2 "2024_01_01_to_2024_01_10.html"] (toOrd ⟨2024, 2, 15⟩) [10, 20, 30] ↔
        toOrd ⟨2024, 2, 15⟩ - 30 ≤ toOrd ⟨2024, 1, 10⟩)) :=
  ⟨by decide, by decide, by decide, by decide,
    c3_multi_day_retention _ _ _ _ _ (by decide) (by decide) (by decide) (by decide)⟩

/-- C4: the sweep never deletes a filename that does not contain the multi-day
marker — every such file present before the sweep is present after it,
whatever its age, the windows, and the rest of the store. -/
theorem c4_single_day_never_deleted (files : List (List Char)) (todayOrd : Int)
    (keepDays : List Int) (n : List Char) (hn : n ∈ files)
    (hm : hasMarker n = false) :
    n ∈ cleanup_old_html_files files todayOrd keepDays := by
  rw [mem_cleanup]
  refine ⟨hn, ?_⟩
  intro hdel
  rcases (mem_deletedFiles files todayOrd keepDays n).mp hdel with ⟨⟨d, hd⟩, -⟩
  have hq := (multiDayFiles_mem_spec files (d, n) hd).2.2.1
  simp only at hq
  rw [hm] at hq
  cases hq

/-- C4 witness: a 25-year-old single-day document survives a sweep that
deletes an out-of-window multi-day neighbour. -/
theorem c4_single_day_never_deleted_witness :
    (str2 "1999_01_01.html") ∈
        [str2 "1999_01_01.html", str2 "2024_01_01_to_2024_01_10.html"] ∧
    hasMarker (str2 "1999_01_01.html") = false ∧
    (str2 "1999_01_01.html") ∈ cleanup_old_html_files
        [str2 "1999_01_01.html", str2 "2024_01_01_to_2024_01_10.html"]
        (toOrd ⟨2024, 2, 15⟩) [10, 20, 30] :=
  ⟨by decide, by decide,
    c4_single_day_never_deleted _ (toOrd ⟨2024, 2, 15⟩) [10, 20, 30] _
      (by decide) (by decide)⟩

/-- C10: the sweep only ever considers ".html" names: a file whose name does
not end in ".html" is never classified single-day or multi-day, never counted
into the keep set, never put on the deletion list, and is still present after
the sweep. -/
theorem c10_non_html_ignored (files : List (List Char)) (todayOrd : Int)
    (keepDays : List Int) (n : List Char) (hn : n ∈ files)
    (hh : endsWithHtml n = false) :
    n ∈ cleanup_old_html_files files todayOrd keepDays ∧
    (∀ d, (d, n) ∉ singleDayFiles files) ∧
    (∀ d, (d, n) ∉ multiDayFiles files) ∧
    n ∉ filesToKeep files todayOrd keepDays ∧
    n ∉ deletedFiles files todayOrd keepDays := by
  have hnm : ∀ d, (d, n) ∉ multiDayFiles files := by
    intro d hd
    have hq := (multiDayFiles_mem_spec files (d, n) hd).2.1
    simp only at hq
    rw [hh] at hq
    cases hq
  have hns : ∀ d, (d, n) ∉ singleDayFiles files := by
    intro d hd
    have hq := (singleDayFiles_mem_spec files (d, n) hd).2.1
    simp only at hq
    rw [hh] at hq
    cases hq
  have hnd : n ∉ deletedFiles files todayOrd keepDays := by
    intro hdel
    rcases (mem_deletedFiles files todayOrd keepDays n).mp hdel with ⟨⟨d, hd⟩, -⟩
    exact hnm d hd
  refine ⟨(mem_cleanup files todayOrd keepDays n).mpr ⟨hn, hnd⟩, hns, hnm, ?_, hnd⟩
  intro hk
  rcases (mem_filesToKeep files todayOrd keepDays n).mp hk with ⟨d, hd⟩ | ⟨kd, hkd, d, hd, -⟩
  · exact hns d hd
  · exact hnm d hd

/-- C10 witness: an ancient multi-day-looking name with a ".html.bak"
extension is untouched and unclassified by the sweep. -/
theorem c10_non_html_ignored_witness :
    (str2 "1999_01_01_to_1999_01_02.html.bak") ∈
        [str2 "2024_02_14.html", str2 "1999_01_01_to_1999_01_02.html.bak"] ∧
    endsWithHtml (str2 "1999_01_01_to_1999_01_02.html.bak") = false ∧
    ((str2 "1999_01_01_to_1999_01_02.html.bak") ∈ cleanup_old_html_files
        [str2 "2024_02_14.html", str2 "1999_01_01_to_1999_01_02.html.bak"]
        (toOrd ⟨2024, 2, 15⟩) [10, 20, 30] ∧
      (∀ d, (d, str2 "1999_01_01_to_1999_01_02.html.bak") ∉
          singleDayFiles [str2 "2024_02_14.html", str2 "1999_01_01_to_1999_01_02.html.bak"]) ∧
      (∀ d, (d, str2 "1999_01_01_to_1999_01_02.html.bak") ∉
          multiDayFiles [str2 "2024_02_14.html", str2 "1999_01_01_to_1999_01_02.html.bak"]) ∧
      (str2 "1999_01_01_to_1999_01_02.html.bak") ∉ filesToKeep
        [str2 "2024_02_14.html", str2 "1999_01_01_to_1999_01_02.html.bak"]
        (toOrd ⟨2024, 2, 15⟩) [10, 20, 30] ∧
      (str2 "1999_01_01_to_1999_01_02.html.bak") ∉ deletedFiles
        [str2 "2024_02_14.html", str2 "1999_01_01_to_1999_01_02.html.bak"]
        (toOrd ⟨2024, 2, 15⟩) [10, 20, 30]) :=
  ⟨by decide, by decide,
    c10_non_html_ignored _ (toOrd ⟨2024, 2, 15⟩) [10, 20, 30] _ (by decide) (by decide)⟩

/-- Source store whose newer daily file has content that fails to parse. -/
def c5Store : SrcStore :=
  [(str2 "2024-01-01.json", some [{ score := some 1 }]),
   (str2 "2024-01-02.json", none)]

/-- C5 counterexample: a selected source whose content fails to parse is
skipped (contributes no records) and not replaced, but it is NOT excluded
from the covered dates: its date stays in `date_range` and still shapes the
derived output name, contrary to the claim. -/
theorem c5_counterexample :
    List.lookup (str2 "2024-01-02.json") c5Store = some none ∧
    (⟨2024, 1, 2⟩ : Date) ∈ dateRange c5Store 10 ∧
    outputFilename (dateRange c5Store 10) = str2 "2024_01_01_to_2024_01_02.html" ∧
    allPapers c5Store 10
      = [{ score := some 1, source_date := some ⟨2024, 1, 1⟩,
           source_date_fmt := some (str2 "January 01, 2024") }] := by
  decide

/-- C5 amended: a selected source whose content fails to parse is skipped
with a warning — its records never reach the merged sequence — the run
continues with the remaining sources and the skipped source is not replaced;
however its date remains in `covered_dates` and therefore still contributes
to the derived output name.  Formally: selection and covered dates are a
function of the store's filenames alone (contents, parsable or not, cannot
change them — in particular no backfill happens), and every merged record
comes from a selected source whose content parsed. -/
theorem c5_amended :
    (∀ (s1 s2 : SrcStore) (days : Int), s1.map Prod.fst = s2.map Prod.fst →
        selectedFiles s1 days = selectedFiles s2 days ∧
        dateRange s1 days = dateRange s2 days ∧
        (selectedFiles s1 days = [] →
          outputFilename (dateRange s1 days) = outputFilename (dateRange s2 days))) ∧
    (∀ (src : SrcStore) (days : Int) (p : Paper), p ∈ allPapers src days →
        ∃ d n papers, (d, n) ∈ selectedFiles src days ∧
          List.lookup n src = some (some papers) ∧ p ∈ papers.map (tagPaper d)) := by
  constructor
  · intro s1 s2 days hnames
    have hsel : selectedFiles s1 days = selectedFiles s2 days := by
      unfold selectedFiles jsonCandidates
      rw [hnames]
    have hdr : dateRange s1 days = dateRange s2 days := by
      unfold dateRange
      rw [hsel]
    exact ⟨hsel, hdr, fun _ => by rw [hdr]⟩
  · intro src days p hp
    rcases List.mem_flatMap.mp hp with ⟨fdn, hmem, hin⟩
    rcases hlook : List.lookup fdn.2 src with _ | oc
    · rw [hlook] at hin
      cases hin
    · rcases oc with _ | papers
      · rw [hlook] at hin
        cases hin
      · rw [hlook] at hin
        exact ⟨fdn.1, fdn.2, papers, hmem, hlook, hin⟩

/-- Source store with twelve daily files, 2024-01-01 through 2024-01-12. -/
def c6Store : SrcStore :=
  [(str2 "2024-01-01.json", some [{ score := some 1 }]),
   (str2 "2024-01-02.json", some [{ score := some 1 }]),
   (str2 "2024-01-03.json", some [{ score := some 1 }]),
   (str2 "2024-01-04.json", some [{ score := some 1 }]),
   (str2 "2024-01-05.json", some [{ score := some 1 }]),
   (str2 "2024-01-06.json", some [{ score := some 1 }]),
   (str2 "2024-01-07.json", some [{ score := some 1 }]),
   (str2 "2024-01-08.json", some [{ score := some 1 }]),
   (str2 "2024-01-09.json", some [{ score := some 1 }]),
   (str2 "2024-01-10.json", some [{ score := some 1 }]),
   (str2 "2024-01-11.json", some [{ score := some 1 }]),
   (str2 "2024-01-12.json", some [{ score := some 1 }])]

/-- C6 counterexample: the claimed hard ceiling of 10 does not hold for every
requested day count — with twelve sources and a request of -1,
`days = min(-1, 10) = -1` and the Python slice `json_files[:-1]` selects
eleven sources. -/
theorem c6_counterexample :
    (selectedFiles c6Store (-1)).length = 11 ∧
    10 < (selectedFiles c6Store (-1)).length := by
  decide

/-- C6 amended: for every NON-NEGATIVE requested day count the loader selects
at most `min(requested, 10)` sources; and on the twelve-file store with
`max_days = 10` the ten most recent dates are selected and the planner emits
`2024_01_03_to_2024_01_12.html`. -/
theorem c6_amended :
    (∀ (src : SrcStore) (days : Int), 0 ≤ days →
        (selectedFiles src days).length ≤ 10 ∧
        (selectedFiles src days).length ≤ days.toNat) ∧
    (dateRange c6Store 10).length = 10 ∧
    outputFilename (dateRange c6Store 10) = str2 "2024_01_03_to_2024_01_12.html" := by
  refine ⟨?_, by decide, by decide⟩
  intro src days hdays
  have h0 : (0 : Int) ≤ min days 10 := le_min hdays (by norm_num)
  unfold selectedFiles pySliceTo
  rw [if_pos h0]
  constructor
  · calc (List.take (min days 10).toNat _).length
        ≤ (min days 10).toNat := by
          rw [List.length_take]
          exact Nat.min_le_left _ _
      _ ≤ (10 : Int).toNat := Int.toNat_le_toNat (min_le_right _ _)
      _ = 10 := rfl
  · calc (List.take (min days 10).toNat _).length
        ≤ (min days 10).toNat := by
          rw [List.length_take]
          exact Nat.min_le_left _ _
      _ ≤ days.toNat := Int.toNat_le_toNat (min_le_left _ _)

/-- Embedding of `generate_html_from_json(json_file_path, ...)`.  A content
that fails to load or parse (`none`) returns early after a log line.  The
date-extraction `try` block binds the local `report_date` only on successful
parse; the `except (IndexError, ValueError)` arm logs a warning and sets the
formatted date and title from today, but leaves `report_date` unassigned, so
the later `template.render(..., report_date=report_date, ...)` raises
UnboundLocalError (a NameError) for a filename whose date does not parse.
On success the document `<formatted_date>.html` is written unconditionally. -/
def generate_html_from_json (filename : List Char) (content : Option (List Paper))
    (today : Date) (out : List (List Char)) :
    Except (List Char) (List (List Char)) :=
  match content with
  | none => .ok out
  | some _papers =>
    let report_date : Option Date := fromisoformat (filename.takeWhile (fun c => c ≠ '.'))
    let formatted : List Char :=
      match report_date with
      | some d => fmtDateU d
      | none => fmtDateU today
    match report_date with
    | none => .error (str2 "UnboundLocalError: report_date")
    | some _ =>
      let name := formatted ++ str2 ".html"
      .ok (if name ∈ out then out else out ++ [name])

/-- C7: a malformed source filename is NOT merely skipped with a warning in
single-day generation — the handler for the failed date parse leaves the
local `report_date` unassigned and the subsequent render raises, so a
malformed name is fatal there (while a well-formed name goes through).  The
claim that malformed names are never fatal is refuted on this path. -/
theorem c7_malformed_name_fatal :
    generate_html_from_json (str2 "notadate.json")
        (some [{ score := some 1 }]) ⟨2024, 5, 1⟩ []
      = .error (str2 "UnboundLocalError: report_date") ∧
    generate_html_from_json (str2 "2024-03-05.json")
        (some [{ score := some 1 }]) ⟨2024, 5, 1⟩ []
      = .ok [str2 "2024_03_05.html"] :=
  ⟨rfl, rfl⟩

/-- C8: the combined record sequence rendered by multi-day generation is the
merge of ALL selected sources sorted as one list: it is a permutation of the
combined records, it is ordered by priority score descending (a record with
no score counting as 0), and equal-score records are contiguous. -/
theorem c8_merge_sort (src : SrcStore) (days : Int) :
    List.Perm (sortedAllPapers src days) (allPapers src days) ∧
    (sortedAllPapers src days).Pairwise (fun a b => getScore b ≤ getScore a) ∧
    (∀ i j k : Fin (sortedAllPapers src days).length,
        i ≤ j → j ≤ k →
        getScore ((sortedAllPapers src days).get i)
            = getScore ((sortedAllPapers src days).get k) →
        getScore ((sortedAllPapers src days).get j)
            = getScore ((sortedAllPapers src days).get i)) := by
  refine ⟨sortDesc_perm _ _, sortDesc_sorted_score _, ?_⟩
  have hp := sortDesc_sorted_score (allPapers src days)
  have anti : ∀ a b : Fin (sortedAllPapers src days).length, a ≤ b →
      getScore ((sortedAllPapers src days).get b)
        ≤ getScore ((sortedAllPapers src days).get a) := by
    intro a b hab
    rcases eq_or_lt_of_le hab with heq | hlt
    · rw [Fin.le_antisymm hab (le_of_eq heq.symm)]
    · exact List.pairwise_iff_get.mp hp a b hlt
  intro i j k hij hjk hik
  have h1 := anti i j hij
  have h2 := anti j k hjk
  omega

/-- C9: the maintenance entry point exits non-zero only when the output store
is absent; when it is present it sweeps with the default windows — but it
never rewrites the index file as the sorted listing: `open(path, "w")`
truncates `reports.json`, then `json.dump` references `json`, a module
`cleanup_html.py` does not import, so it raises NameError, which the
surrounding `except Exception` swallows after logging.  Whatever the index
held before, the run leaves it a zero-byte file: the prior content is
destroyed and no listing is ever written.  The claim's rewrite clause is
refuted; the exit-code and sweep clauses hold. -/
theorem c9_maintenance_no_index_rewrite (files : List (List Char)) (todayOrd : Int)
    (reports0 : ReportsJson) :
    (cleanup_html_main (some files) todayOrd reports0).exitCode = 0 ∧
    (cleanup_html_main (some files) todayOrd reports0).htmlDir
      = some (cleanup_old_html_files files todayOrd [10, 20, 30]) ∧
    (cleanup_html_main (some files) todayOrd reports0).reportsJson = ReportsJson.empty ∧
    (∀ names, (cleanup_html_main (some files) todayOrd reports0).reportsJson
        ≠ ReportsJson.listing names) ∧
    (cleanup_html_main none todayOrd reports0).exitCode = 1 := by
  have hmain : cleanup_html_main (some files) todayOrd reports0
      = ⟨0, some (cleanup_old_html_files files todayOrd [10, 20, 30]),
          ReportsJson.empty⟩ := by
    simp only [cleanup_html_main]
    rw [if_neg (by decide)]
  refine ⟨by rw [hmain], by rw [hmain], by rw [hmain], ?_, rfl⟩
  intro names
  rw [hmain]
  simp
